import Mathlib

/-!
Verification of the coupon-selector core (src/app.py): a per-tenant record
store of URL-tagged amounts and the greedy allocation engine `use_amount`.

Amounts (SQL column `amount REAL`, manipulated as Python floats) are
modelled as exact rationals `ℚ`.  The properties verified below are
representation-independent (control flow, which fields a response carries,
ordering, membership, store mutation): they hold whatever rounding the
arithmetic performs.  Exact-sum identities of the float arithmetic itself
(e.g. that consumed amounts plus shortfall reproduce the request exactly,
which IEEE rounding of `remaining -= url['amount']` at src/app.py:304
falsifies for inputs such as a record of 0.01 against a request of
10000000.01) are floating-point facts outside this exact-arithmetic model
and are not claimed by any theorem in this file.
The store is modelled for one fixed tenant (`family_id` fixed): every
operation under verification filters on a single tenant, so the tenant
column is dropped and a `Store` holds that tenant's rows of the `urls`
table.  The `created_at` column is never read by the operations under
verification and is omitted.  JSON `message` strings that interpolate
formatted numbers are omitted from response models; static strings are kept
verbatim.
-/

/-- One row of the `urls` table for the fixed tenant:
`{id, url, amount, used}` (schema in `init_urls_table`, src/app.py:57-77). -/
structure Record where
  id : Nat
  url : String
  amount : ℚ
  used : Bool
  deriving Repr, DecidableEq

/-- The tenant's slice of the `urls` table, in insertion (id) order, plus
the next value of the `SERIAL` id sequence. -/
structure Store where
  records : List Record
  nextId : Nat
  deriving Repr, DecidableEq

/-- A fresh tenant: no rows, `SERIAL` sequence starts at 1. -/
def emptyStore : Store := ⟨[], 1⟩

/-- `INSERT INTO urls (url, amount, used, family_id) VALUES (%s, %s, FALSE, %s)`
(src/app.py:250 and :381): appends a row with the next serial id, `used=FALSE`. -/
def insertRecord (s : Store) (url : String) (amount : ℚ) : Store :=
  { records := s.records ++ [{ id := s.nextId, url := url, amount := amount, used := false }],
    nextId := s.nextId + 1 }

/-- One element of the `used_urls` list built by `use_amount`
(src/app.py:298-315): the reported consumption of one record. -/
structure UsedUrl where
  id : Nat
  url : String
  amount : ℚ
  remaining : ℚ
  deriving Repr, DecidableEq

/-- `ORDER BY amount DESC`: the row `a` may precede `b` when `b.amount ≤ a.amount`. -/
def amountDescRel (a b : Record) : Prop := b.amount ≤ a.amount

instance : DecidableRel amountDescRel := fun a b =>
  inferInstanceAs (Decidable (b.amount ≤ a.amount))

instance : IsTotal Record amountDescRel := ⟨fun a b => le_total b.amount a.amount⟩

instance : IsTrans Record amountDescRel := ⟨fun _ _ _ h1 h2 => le_trans h2 h1⟩

/-- A canonical realisation of `ORDER BY amount DESC`.  SQL fixes only the
amount-descending property; tie order among equal amounts is unspecified and
is treated relationally via `IsQueryResult`. -/
def sortByAmountDesc (l : List Record) : List Record :=
  List.insertionSort amountDescRel l

/-- `l` is sorted by amount descending. -/
def AmountDescSorted (l : List Record) : Prop := l.Sorted amountDescRel

/-- The rows of `SELECT * FROM urls WHERE family_id = %s AND used = FALSE AND amount > 0`
(src/app.py:283), before the `ORDER BY`. -/
def unusedPositive (s : Store) : List Record :=
  s.records.filter (fun r => !r.used && decide (0 < r.amount))

/-- The record list handed to the greedy loop of `use_amount`
(src/app.py:283-284), with the canonical tie order. -/
def use_amount_query (s : Store) : List Record :=
  sortByAmountDesc (unusedPositive s)

/-- `l` is a possible result of the `use_amount` query (src/app.py:283):
the unused positive rows of the tenant in some amount-descending order. -/
def IsQueryResult (s : Store) (l : List Record) : Prop :=
  l.Perm (unusedPositive s) ∧ AmountDescSorted l

/-- The four locals the greedy loop of `use_amount` has produced when it
exits (src/app.py:286-317). -/
structure LoopOut where
  used_urls : List UsedUrl
  to_mark_used : List Nat
  to_update : List (ℚ × Nat)
  remaining : ℚ
  deriving Repr, DecidableEq

/-- The greedy loop of `use_amount` (src/app.py:292-317): visit records in
the given order, break once `remaining <= 0`; a record with
`amount <= remaining` is taken whole (scheduled for `used=true`), otherwise
it is split (scheduled for `amount := amount - remaining`) and `remaining`
becomes 0. -/
def greedyLoop : ℚ → List Record → LoopOut
  | remaining, [] => ⟨[], [], [], remaining⟩
  | remaining, url :: urls =>
    if remaining ≤ 0 then ⟨[], [], [], remaining⟩
    else if url.amount ≤ remaining then
      let rest := greedyLoop (remaining - url.amount) urls
      ⟨⟨url.id, url.url, url.amount, 0⟩ :: rest.used_urls,
       url.id :: rest.to_mark_used, rest.to_update, rest.remaining⟩
    else
      let used_amount := remaining
      let new_amount := url.amount - remaining
      let rest := greedyLoop 0 urls
      ⟨⟨url.id, url.url, used_amount, new_amount⟩ :: rest.used_urls,
       rest.to_mark_used, (new_amount, url.id) :: rest.to_update, rest.remaining⟩

/-- The JSON body `use_amount` answers with: either the 400 error object or
a 200 object carrying `used_urls` and, only on the shortfall path
(src/app.py:330-335), the numeric `remaining_needed` field; the
fully-satisfied object (src/app.py:337-340) has no such field. -/
inductive UseAmountResult where
  | badRequest (error : String)
  | ok (used_urls : List UsedUrl) (remaining_needed : Option ℚ)
  deriving Repr, DecidableEq

/-- The `used_urls` list of a response (empty for the 400 error object). -/
def consumedUrls : UseAmountResult → List UsedUrl
  | .ok urls _ => urls
  | .badRequest _ => []

/-- The `remaining_needed` field of a response, when present. -/
def remainingNeededField : UseAmountResult → Option ℚ
  | .ok _ rn => rn
  | .badRequest _ => none

/-- True iff the response is a 200 success object. -/
def isOkResult : UseAmountResult → Bool
  | .ok _ _ => true
  | .badRequest _ => false

/-- The body of `use_amount` after the query (src/app.py:286-340), as a
function of the record list the query returned.  The UPDATE statements for
`to_mark_used` and `to_update` are commented out in the source
(src/app.py:319-325), so the store is returned unchanged. -/
def use_amount_given (s : Store) (amount_needed : ℚ) (urls : List Record) :
    UseAmountResult × Store :=
  let out := greedyLoop amount_needed urls
  if 0 < out.remaining then
    (.ok out.used_urls (some out.remaining), s)
  else
    (.ok out.used_urls none, s)

/-- `use_amount` (src/app.py:264-345) with the canonical query tie order:
reject `amount_needed <= 0` with the 400 error, otherwise run the greedy
loop over the unused positive rows sorted by amount descending. -/
def use_amount (s : Store) (amount_needed : ℚ) : UseAmountResult × Store :=
  if amount_needed ≤ 0 then
    (.badRequest "Amount must be greater than 0", s)
  else
    use_amount_given s amount_needed (use_amount_query s)

/-- `out` is a possible outcome of `use_amount s amount_needed` when the
query's tie order is left to the database: some amount-descending ordering
of the unused positive rows is processed. -/
def UseAmountRun (s : Store) (amount_needed : ℚ) (out : UseAmountResult × Store) : Prop :=
  if amount_needed ≤ 0 then
    out = (.badRequest "Amount must be greater than 0", s)
  else
    ∃ l, IsQueryResult s l ∧ out = use_amount_given s amount_needed l

/-- `get_urls` (src/app.py:177-187):
`SELECT * FROM urls WHERE family_id = %s AND used = FALSE ORDER BY amount DESC`
— note there is no `amount > 0` filter here. -/
def get_urls (s : Store) : List Record :=
  sortByAmountDesc (s.records.filter (fun r => !r.used))

/-!
Python `str` values manipulated by `upload_file` and `add_url` are modelled
as `List Char` (a Python string is a sequence of code points); the helpers
below model exactly the `str` builtins the source calls.
-/

/-- Modelled from Python's notion of whitespace as used by `str.strip()` and
`str.split()` on the inputs in scope (space, tab, newline, carriage return). -/
def isPySpace (c : Char) : Bool :=
  c == ' ' || c == '\t' || c == '\n' || c == '\r'

/-- Modelled from Python's `str.strip()`: drop leading and trailing whitespace. -/
def pyStrip (cs : List Char) : List Char :=
  ((cs.dropWhile isPySpace).reverse.dropWhile isPySpace).reverse

/-- Modelled from Python's `str.replace(old, new)` for the single-character
patterns the source uses (`','` and `'\t'`, both replaced by `' '`). -/
def replaceChar (old new : Char) (cs : List Char) : List Char :=
  cs.map (fun c => if c == old then new else c)

/-- Helper for `splitChar`: accumulate the current segment (reversed). -/
def splitCharAux (sep : Char) : List Char → List Char → List (List Char)
  | [], acc => [acc.reverse]
  | c :: cs, acc =>
    if c == sep then acc.reverse :: splitCharAux sep cs []
    else splitCharAux sep cs (c :: acc)

/-- Modelled from Python's `str.split(sep)` with an explicit separator
(the source uses `content.strip().split('\n')`): empty segments are kept. -/
def splitChar (sep : Char) (cs : List Char) : List (List Char) :=
  splitCharAux sep cs []

/-- Helper for `splitWs`: accumulate the current field (reversed). -/
def splitWsAux : List Char → List Char → List (List Char)
  | [], acc => if acc = [] then [] else [acc.reverse]
  | c :: cs, acc =>
    if isPySpace c then
      if acc = [] then splitWsAux cs [] else acc.reverse :: splitWsAux cs []
    else splitWsAux cs (c :: acc)

/-- Modelled from Python's no-argument `str.split()` (the source's
`line.replace(',',' ').replace('\t',' ').split()`): split on whitespace
runs, discarding empty fields. -/
def splitWs (cs : List Char) : List (List Char) :=
  splitWsAux cs []

/-- Value of a digit string; `none` if any character is not a digit.
`[]` maps to `some 0`; callers check emptiness themselves. -/
def digitsVal (cs : List Char) : Option Nat :=
  cs.foldl
    (fun acc c =>
      match acc with
      | none => none
      | some n => if c.isDigit then some (n * 10 + (c.toNat - 48)) else none)
    (some 0)

/-- Modelled from the Python builtin `float()` on string tokens, restricted
to optional-sign decimal literals (`"10"`, `"-3.25"`, `".5"`, `"7."`); the
exponent, infinity, nan and underscore forms are not exercised by any claim
under verification.  Surrounding whitespace is stripped as `float()` does;
any other token is rejected (Python raises `ValueError`). -/
def pyFloat (tok : List Char) : Option ℚ :=
  let cs := pyStrip tok
  let signBody : ℚ × List Char :=
    match cs with
    | '+' :: rest => (1, rest)
    | '-' :: rest => (-1, rest)
    | _ => (1, cs)
  let sign := signBody.1
  let body := signBody.2
  let intPart := body.takeWhile (fun c => c != '.')
  match body.dropWhile (fun c => c != '.') with
  | [] =>
    if intPart = [] then none
    else (digitsVal intPart).map (fun n => sign * (n : ℚ))
  | _ :: fracPart =>
    if intPart = [] ∧ fracPart = [] then none
    else
      match digitsVal intPart, digitsVal fracPart with
      | some ip, some fp => some (sign * ((ip : ℚ) + (fp : ℚ) / (10 : ℚ) ^ fracPart.length))
      | _, _ => none

/-- One line's parse inside `upload_file` (src/app.py:242-247): normalise
commas and tabs to spaces, split on whitespace; succeed with the amount and
the space-rejoined remainder when there are at least two fields and the
first is numeric. -/
def parseLine (line : List Char) : Option (ℚ × List Char) :=
  let parts := splitWs (replaceChar '\t' ' ' (replaceChar ',' ' ' line))
  match parts with
  | amountTok :: urlParts =>
    if urlParts = [] then none
    else
      match pyFloat amountTok with
      | some amount => some (amount, List.intercalate [' '] urlParts)
      | none => none
  | [] => none

/-- One iteration of the upload loop (src/app.py:237-254): skip blank lines,
skip unparsable lines (`len(parts) < 2` or `float` failure), otherwise
insert the record and bump the counter. -/
def uploadStep (acc : Nat × Store) (rawLine : List Char) : Nat × Store :=
  let line := pyStrip rawLine
  if line = [] then acc
  else
    match parseLine line with
    | some au => (acc.1 + 1, insertRecord acc.2 (String.mk au.2) au.1)
    | none => acc

/-- `upload_file` (src/app.py:218-262) on decoded file content: split the
stripped content into lines and run the upload loop; returns the reported
`count` and the updated store (committed once at the end). -/
def upload_file (s : Store) (content : List Char) : Nat × Store :=
  (splitChar '\n' (pyStrip content)).foldl uploadStep (0, s)

/-- A raw line is counted by `upload_file` iff it is non-blank after
stripping and parses: at least two fields and a numeric first field. -/
def lineAdded (l : List Char) : Bool :=
  !(pyStrip l).isEmpty && (parseLine (pyStrip l)).isSome

/-- A JSON value supplied for the `amount` key of `/api/add`: a number, a
string token, or absent (Python `data.get('amount', 0)` then yields `0`). -/
inductive JsonVal where
  | num (q : ℚ)
  | str (t : List Char)
  | missing
  deriving Repr, DecidableEq

/-- Modelled from `float(data.get('amount', 0))` (src/app.py:374): identity
on numbers, `pyFloat` on string tokens, `0` when the key is absent; `none`
models an uncaught `ValueError`. -/
def jsonFloat : JsonVal → Option ℚ
  | .num q => some q
  | .str t => pyFloat t
  | .missing => some 0

/-- Outcome of `/api/add` (src/app.py:367-385): the 400 validation error
with its JSON description, an uncaught `ValueError` from `float()`
(src/app.py:374 has no try/except, so Flask answers a generic 500 with no
validation description), or the 200 success. -/
inductive AddUrlResult where
  | validationError (error : String)
  | uncaughtError
  | added
  deriving Repr, DecidableEq

/-- True iff the outcome is the 400 validation error object. -/
def isValidationError : AddUrlResult → Bool
  | .validationError _ => true
  | _ => false

/-- `add_url` (src/app.py:367-385): strip the url, convert the amount with
`float` (raising, uncaught, on a non-numeric token), reject empty url or
non-positive amount with the 400 error, otherwise insert the record. -/
def add_url (s : Store) (urlVal : List Char) (amountVal : JsonVal) :
    AddUrlResult × Store :=
  let url := pyStrip urlVal
  match jsonFloat amountVal with
  | none => (.uncaughtError, s)
  | some amount =>
    if url = [] ∨ amount ≤ 0 then
      (.validationError "Valid URL and amount required", s)
    else
      (.added, insertRecord s (String.mk url) amount)

/-- Follows the spec's words (§4.2, algorithm steps 2-4): visit records in
order, stopping once `remaining <= 0`; a record with `amount <= remaining`
contributes `{id, url, amount: record.amount, remaining: 0}` and decrements
`remaining`; otherwise it contributes
`{id, url, amount: remaining, remaining: record.amount - remaining}` and the
loop ends.  Stated separately from `greedyLoop` (which is translated from
src/app.py:292-317) so the two can be compared. -/
def specGreedySelection : ℚ → List Record → List UsedUrl
  | _, [] => []
  | remaining, r :: rest =>
    if remaining ≤ 0 then []
    else if r.amount ≤ remaining then
      ⟨r.id, r.url, r.amount, 0⟩ :: specGreedySelection (remaining - r.amount) rest
    else
      [⟨r.id, r.url, remaining, r.amount - remaining⟩]

theorem greedyLoop_nonpos (l : List Record) (rem : ℚ) (h : rem ≤ 0) :
    greedyLoop rem l = ⟨[], [], [], rem⟩ := by
  cases l with
  | nil => rfl
  | cons a t => simp only [greedyLoop, if_pos h]

theorem greedyLoop_remaining_nonneg (l : List Record) : ∀ rem : ℚ, 0 ≤ rem →
    0 ≤ (greedyLoop rem l).remaining := by
  induction l with
  | nil => intro rem h; simpa [greedyLoop] using h
  | cons a t ih =>
    intro rem h
    simp only [greedyLoop]
    by_cases h0 : rem ≤ 0
    · simpa [if_pos h0] using h
    · simp only [if_neg h0]
      by_cases hle : a.amount ≤ rem
      · simpa [if_pos hle] using ih (rem - a.amount) (by linarith)
      · simpa [if_neg hle] using ih 0 le_rfl

theorem greedyLoop_dropLast_full (l : List Record) : ∀ rem : ℚ,
    ∀ e ∈ (greedyLoop rem l).used_urls.dropLast, e.remaining = 0 := by
  induction l with
  | nil => intro rem e he; simp [greedyLoop] at he
  | cons a t ih =>
    intro rem e he
    by_cases h0 : rem ≤ 0
    · rw [greedyLoop_nonpos _ _ h0] at he; simp at he
    · simp only [greedyLoop, if_neg h0] at he
      by_cases hle : a.amount ≤ rem
      · simp only [if_pos hle] at he
        rcases hc : (greedyLoop (rem - a.amount) t).used_urls with _ | ⟨b, c⟩
        · rw [hc] at he; simp at he
        · rw [hc, List.dropLast_cons₂, List.mem_cons] at he
          rcases he with he | he
          · rw [he]
          · exact ih (rem - a.amount) e (by rw [hc]; simpa using he)
      · simp only [if_neg hle] at he
        rw [greedyLoop_nonpos t 0 le_rfl] at he
        simp at he

theorem greedyLoop_mem (l : List Record) : ∀ rem : ℚ,
    ∀ e ∈ (greedyLoop rem l).used_urls, ∃ r ∈ l, e.id = r.id ∧ e.url = r.url := by
  induction l with
  | nil => intro rem e he; simp [greedyLoop] at he
  | cons a t ih =>
    intro rem e he
    by_cases h0 : rem ≤ 0
    · rw [greedyLoop_nonpos _ _ h0] at he; simp at he
    · simp only [greedyLoop, if_neg h0] at he
      by_cases hle : a.amount ≤ rem
      · simp only [if_pos hle, List.mem_cons] at he
        rcases he with he | he
        · exact ⟨a, List.mem_cons_self a t, by rw [he], by rw [he]⟩
        · obtain ⟨r, hr, h1, h2⟩ := ih (rem - a.amount) e he
          exact ⟨r, List.mem_cons_of_mem a hr, h1, h2⟩
      · simp only [if_neg hle, List.mem_cons] at he
        rcases he with he | he
        · exact ⟨a, List.mem_cons_self a t, by rw [he], by rw [he]⟩
        · obtain ⟨r, hr, h1, h2⟩ := ih 0 e he
          exact ⟨r, List.mem_cons_of_mem a hr, h1, h2⟩

theorem greedyLoop_eq_spec (l : List Record) : ∀ rem : ℚ,
    (greedyLoop rem l).used_urls = specGreedySelection rem l := by
  induction l with
  | nil => intro rem; rfl
  | cons a t ih =>
    intro rem
    by_cases h0 : rem ≤ 0
    · rw [greedyLoop_nonpos _ _ h0]
      simp [specGreedySelection, if_pos h0]
    · simp only [greedyLoop, specGreedySelection, if_neg h0]
      by_cases hle : a.amount ≤ rem
      · simp only [if_pos hle]
        rw [ih (rem - a.amount)]
      · simp only [if_neg hle]
        rw [greedyLoop_nonpos t 0 le_rfl]

theorem greedyLoop_map_amounts (l₁ : List Record) : ∀ (l₂ : List Record) (rem : ℚ),
    l₁.map Record.amount = l₂.map Record.amount →
    (greedyLoop rem l₁).used_urls.map (fun e => (e.amount, e.remaining)) =
        (greedyLoop rem l₂).used_urls.map (fun e => (e.amount, e.remaining)) ∧
      (greedyLoop rem l₁).remaining = (greedyLoop rem l₂).remaining := by
  induction l₁ with
  | nil =>
    intro l₂ rem h
    have : l₂ = [] := by simpa using (List.map_eq_nil_iff.mp h.symm)
    subst this
    exact ⟨rfl, rfl⟩
  | cons a t ih =>
    intro l₂ rem h
    cases l₂ with
    | nil => simp at h
    | cons b u =>
      simp only [List.map_cons, List.cons.injEq] at h
      obtain ⟨hab, htu⟩ := h
      by_cases h0 : rem ≤ 0
      · rw [greedyLoop_nonpos _ _ h0, greedyLoop_nonpos _ _ h0]
        exact ⟨rfl, rfl⟩
      · simp only [greedyLoop, if_neg h0]
        by_cases hle : a.amount ≤ rem
        · have hle' : b.amount ≤ rem := by rw [← hab]; exact hle
          obtain ⟨hmap, hrem⟩ := ih u (rem - b.amount) htu
          simp only [if_pos hle, if_pos hle', List.map_cons]
          rw [hab]
          exact ⟨by rw [hmap], hrem⟩
        · have hle' : ¬ b.amount ≤ rem := by rw [← hab]; exact hle
          obtain ⟨hmap, hrem⟩ := ih u 0 htu
          simp only [if_neg hle, if_neg hle', List.map_cons]
          rw [hab]
          exact ⟨by rw [hmap], hrem⟩

theorem sortByAmountDesc_perm (l : List Record) : (sortByAmountDesc l).Perm l :=
  List.perm_insertionSort amountDescRel l

theorem sortByAmountDesc_sorted (l : List Record) : AmountDescSorted (sortByAmountDesc l) :=
  List.sorted_insertionSort amountDescRel l

theorem mem_sortByAmountDesc {a : Record} {l : List Record} :
    a ∈ sortByAmountDesc l ↔ a ∈ l :=
  (sortByAmountDesc_perm l).mem_iff

theorem isQueryResult_canonical (s : Store) : IsQueryResult s (use_amount_query s) :=
  ⟨sortByAmountDesc_perm _, sortByAmountDesc_sorted _⟩

theorem useAmountRun_canonical (s : Store) (amt : ℚ) :
    UseAmountRun s amt (use_amount s amt) := by
  unfold UseAmountRun use_amount
  by_cases h : amt ≤ 0
  · simp [if_pos h]
  · simp only [if_neg h]
    exact ⟨use_amount_query s, isQueryResult_canonical s, rfl⟩

theorem mem_unusedPositive {s : Store} {r : Record} :
    r ∈ unusedPositive s ↔ r ∈ s.records ∧ r.used = false ∧ 0 < r.amount := by
  simp [unusedPositive, List.mem_filter, and_assoc]

theorem unusedPositive_of_no_unused {s : Store}
    (h : s.records.filter (fun r => !r.used) = []) : unusedPositive s = [] := by
  have h' := List.filter_eq_nil_iff.mp h
  apply List.filter_eq_nil_iff.mpr
  intro a ha hpa
  apply h' a ha
  simp only [Bool.and_eq_true] at hpa
  simp [hpa.1]

theorem queryResult_map_amount {s : Store} {l₁ l₂ : List Record}
    (h₁ : IsQueryResult s l₁) (h₂ : IsQueryResult s l₂) :
    l₁.map Record.amount = l₂.map Record.amount := by
  haveI : IsAntisymm ℚ (fun x y : ℚ => y ≤ x) :=
    ⟨fun a b hab hba => le_antisymm hba hab⟩
  have hs₁ : (l₁.map Record.amount).Sorted (fun x y : ℚ => y ≤ x) :=
    h₁.2.map Record.amount (fun _ _ hab => hab)
  have hs₂ : (l₂.map Record.amount).Sorted (fun x y : ℚ => y ≤ x) :=
    h₂.2.map Record.amount (fun _ _ hab => hab)
  exact List.eq_of_perm_of_sorted ((h₁.1.trans h₂.1.symm).map Record.amount) hs₁ hs₂

theorem use_amount_given_store (s : Store) (amt : ℚ) (l : List Record) :
    (use_amount_given s amt l).2 = s := by
  unfold use_amount_given
  by_cases h : 0 < (greedyLoop amt l).remaining
  · simp [if_pos h]
  · simp [if_neg h]

theorem use_amount_given_consumed (s : Store) (amt : ℚ) (l : List Record) :
    consumedUrls (use_amount_given s amt l).1 = (greedyLoop amt l).used_urls := by
  unfold use_amount_given
  by_cases h : 0 < (greedyLoop amt l).remaining
  · simp [if_pos h, consumedUrls]
  · simp [if_neg h, consumedUrls]

theorem use_amount_given_field (s : Store) (amt : ℚ) (l : List Record) :
    remainingNeededField (use_amount_given s amt l).1 =
      if 0 < (greedyLoop amt l).remaining then some (greedyLoop amt l).remaining
      else none := by
  unfold use_amount_given
  by_cases h : 0 < (greedyLoop amt l).remaining
  · simp [if_pos h, remainingNeededField]
  · simp [if_neg h, remainingNeededField]

theorem use_amount_given_isOk (s : Store) (amt : ℚ) (l : List Record) :
    isOkResult (use_amount_given s amt l).1 = true := by
  unfold use_amount_given
  by_cases h : 0 < (greedyLoop amt l).remaining
  · simp [if_pos h, isOkResult]
  · simp [if_neg h, isOkResult]

theorem use_amount_pos (s : Store) (amt : ℚ) (h : 0 < amt) :
    use_amount s amt = use_amount_given s amt (use_amount_query s) := by
  unfold use_amount
  rw [if_neg (by linarith)]

/-- C3: for every tenant state and every amountNeeded ≤ 0 (including 0 and
negative values), `use_amount` answers the 400 `InvalidAmount` error
("Amount must be greater than 0") and the store is unchanged: no record is
created or mutated. -/
theorem use_amount_invalid_amount (s : Store) (amt : ℚ) (h : amt ≤ 0) :
    use_amount s amt = (.badRequest "Amount must be greater than 0", s) := by
  unfold use_amount
  rw [if_pos h]

/-- Witness for C3 at `amt = 0` and `amt = -5` on a one-record store. -/
theorem use_amount_invalid_amount_witness :
    (0 : ℚ) ≤ 0 ∧ (-5 : ℚ) ≤ 0 ∧
      use_amount ⟨[⟨1, "x", 10, false⟩], 2⟩ 0 =
        (.badRequest "Amount must be greater than 0", ⟨[⟨1, "x", 10, false⟩], 2⟩) ∧
      use_amount ⟨[⟨1, "x", 10, false⟩], 2⟩ (-5) =
        (.badRequest "Amount must be greater than 0", ⟨[⟨1, "x", 10, false⟩], 2⟩) :=
  ⟨le_refl 0, by norm_num,
   use_amount_invalid_amount _ 0 (le_refl 0),
   use_amount_invalid_amount _ (-5) (by norm_num)⟩

/-- C4: for every tenant with no unused records and every amountNeeded > 0,
`use_amount` returns success (a 200 object, not an error): the consumed list
is empty and the returned `remaining_needed` equals the full amountNeeded. -/
theorem use_amount_no_unused_records (s : Store) (amt : ℚ) (h : 0 < amt)
    (hnone : s.records.filter (fun r => !r.used) = []) :
    use_amount s amt = (.ok [] (some amt), s) := by
  rw [use_amount_pos s amt h]
  have hq : use_amount_query s = [] := by
    rw [use_amount_query, unusedPositive_of_no_unused hnone]
    rfl
  rw [hq]
  simp [use_amount_given, greedyLoop, h]

/-- Witness for C4: a tenant whose only record is already used, request 7. -/
theorem use_amount_no_unused_records_witness :
    (0 : ℚ) < 7 ∧
      use_amount ⟨[⟨1, "u", 5, true⟩], 2⟩ 7 =
        (.ok [] (some 7), ⟨[⟨1, "u", 5, true⟩], 2⟩) :=
  ⟨by norm_num, use_amount_no_unused_records _ 7 (by norm_num) rfl⟩

/-- C9: `use_amount` only ever considers (and its consumed list only ever
reports) unused records of strictly positive amount: every record the query
hands to the loop is unused with amount > 0, every consumed entry stems from
such a record, and an unused record of amount 0 is excluded from the query
even though `get_urls` (the unused listing) still returns it. -/
theorem use_amount_positive_only (s : Store) (amt : ℚ) (r : Record)
    (hr : r ∈ s.records) (hu : r.used = false) (h0 : r.amount = 0) :
    r ∈ get_urls s ∧ r ∉ use_amount_query s ∧
      (∀ r' ∈ use_amount_query s, 0 < r'.amount ∧ r'.used = false) ∧
      (∀ e ∈ consumedUrls (use_amount s amt).1,
        ∃ r' ∈ use_amount_query s, e.id = r'.id ∧ e.url = r'.url ∧ 0 < r'.amount) := by
  have hquery : ∀ r' ∈ use_amount_query s, 0 < r'.amount ∧ r'.used = false := by
    intro r' hr'
    have := mem_unusedPositive.mp (mem_sortByAmountDesc.mp hr')
    exact ⟨this.2.2, this.2.1⟩
  refine ⟨?_, ?_, hquery, ?_⟩
  · rw [get_urls, mem_sortByAmountDesc]
    simp [List.mem_filter, hr, hu]
  · intro hmem
    have := (hquery r hmem).1
    rw [h0] at this
    exact lt_irrefl 0 this
  · intro e he
    by_cases hpos : amt ≤ 0
    · have hbad : use_amount s amt = (.badRequest "Amount must be greater than 0", s) := by
        unfold use_amount
        rw [if_pos hpos]
      rw [hbad] at he
      simp [consumedUrls] at he
    · rw [use_amount_pos s amt (not_le.mp hpos), use_amount_given_consumed] at he
      obtain ⟨r', hr', hid, hurl⟩ := greedyLoop_mem (use_amount_query s) amt e he
      exact ⟨r', hr', hid, hurl, (hquery r' hr').1⟩

/-- Witness for C9: a store holding one unused record of amount 0; it shows
up in `get_urls` but not in the allocation query. -/
theorem use_amount_positive_only_witness :
    (⟨1, "z", 0, false⟩ : Record) ∈ get_urls ⟨[⟨1, "z", 0, false⟩], 2⟩ ∧
      (⟨1, "z", 0, false⟩ : Record) ∉ use_amount_query ⟨[⟨1, "z", 0, false⟩], 2⟩ :=
  ⟨(use_amount_positive_only ⟨[⟨1, "z", 0, false⟩], 2⟩ 5 _ (by simp) rfl rfl).1,
   (use_amount_positive_only ⟨[⟨1, "z", 0, false⟩], 2⟩ 5 _ (by simp) rfl rfl).2.1⟩

/-- C2: for every amountNeeded > 0 and every descending-amount-ordered
record list, the consumed list produced by the allocation loop is exactly
the greedy largest-first selection described by the spec
(`specGreedySelection`), every entry but the last reports `remaining = 0`
(so at most one partial consumption occurs and it is the last entry), the
consumed list `use_amount` returns is the loop's output on its query, and
that query is descending-amount-ordered. -/
theorem use_amount_greedy_selection (s : Store) (amt : ℚ) (l : List Record)
    (h : 0 < amt) (_hsorted : AmountDescSorted l) :
    (greedyLoop amt l).used_urls = specGreedySelection amt l ∧
      (∀ e ∈ (greedyLoop amt l).used_urls.dropLast, e.remaining = 0) ∧
      consumedUrls (use_amount s amt).1 = (greedyLoop amt (use_amount_query s)).used_urls ∧
      AmountDescSorted (use_amount_query s) :=
  ⟨greedyLoop_eq_spec l amt, greedyLoop_dropLast_full l amt,
   by rw [use_amount_pos s amt h, use_amount_given_consumed],
   sortByAmountDesc_sorted _⟩

/-- Witness for C2: records `[50, 20]` (descending), request 60. -/
theorem use_amount_greedy_selection_witness :
    (greedyLoop 60 [⟨1, "a", 50, false⟩, ⟨2, "b", 20, false⟩]).used_urls =
      specGreedySelection 60 [⟨1, "a", 50, false⟩, ⟨2, "b", 20, false⟩] :=
  (use_amount_greedy_selection emptyStore 60 [⟨1, "a", 50, false⟩, ⟨2, "b", 20, false⟩]
    (by norm_num)
    (by norm_num [AmountDescSorted, List.sorted_cons, amountDescRel])).1

/-- C5 counterexample: on the store holding one unused record of amount 30,
`use_amount _ 30` is fully satisfied and succeeds, yet its response object
carries no `remaining_needed` field at all — contradicting the claim that
every successful result carries a numeric remaining/shortfall field equal
to 0 when fully satisfied. -/
theorem use_amount_shortfall_field_missing :
    isOkResult (use_amount ⟨[⟨1, "http://x", 30, false⟩], 2⟩ 30).1 = true ∧
      remainingNeededField (use_amount ⟨[⟨1, "http://x", 30, false⟩], 2⟩ 30).1 = none := by
  norm_num [use_amount, use_amount_given, use_amount_query, unusedPositive,
    sortByAmountDesc, List.insertionSort, List.orderedInsert, greedyLoop,
    isOkResult, remainingNeededField]

/-- C5 amended: every `use_amount` call with amountNeeded > 0 succeeds and
carries the consumed list; the numeric `remaining_needed` field is present
exactly when the request is not fully satisfied, in which case it is the
positive shortfall still needed; a fully-satisfied response omits the field. -/
theorem use_amount_shortfall_field_presence (s : Store) (amt : ℚ) (h : 0 < amt) :
    isOkResult (use_amount s amt).1 = true ∧
      consumedUrls (use_amount s amt).1 = (greedyLoop amt (use_amount_query s)).used_urls ∧
      (remainingNeededField (use_amount s amt).1 = none ↔
        (greedyLoop amt (use_amount_query s)).remaining = 0) ∧
      (∀ v, remainingNeededField (use_amount s amt).1 = some v →
        0 < v ∧ v = (greedyLoop amt (use_amount_query s)).remaining) := by
  rw [use_amount_pos s amt h]
  refine ⟨use_amount_given_isOk s amt _, use_amount_given_consumed s amt _, ?_, ?_⟩
  · rw [use_amount_given_field]
    by_cases hr : 0 < (greedyLoop amt (use_amount_query s)).remaining
    · rw [if_pos hr]
      simp [ne_of_gt hr]
    · rw [if_neg hr]
      simp only [true_iff]
      exact le_antisymm (not_lt.mp hr)
        (greedyLoop_remaining_nonneg _ amt (le_of_lt h))
  · intro v hv
    rw [use_amount_given_field] at hv
    by_cases hr : 0 < (greedyLoop amt (use_amount_query s)).remaining
    · rw [if_pos hr] at hv
      have : v = (greedyLoop amt (use_amount_query s)).remaining :=
        (Option.some.injEq _ _ ▸ hv).symm
      exact ⟨this ▸ hr, this⟩
    · rw [if_neg hr] at hv
      exact absurd hv (Option.noConfusion)

/-- Witness for C5 amended, on one record of 10 and request 25. -/
theorem use_amount_shortfall_field_presence_witness :
    isOkResult (use_amount ⟨[⟨1, "x", 10, false⟩], 2⟩ 25).1 = true :=
  (use_amount_shortfall_field_presence ⟨[⟨1, "x", 10, false⟩], 2⟩ 25 (by norm_num)).1

theorem insertRecord_length (s : Store) (url : String) (amount : ℚ) :
    (insertRecord s url amount).records.length = s.records.length + 1 := by
  simp [insertRecord]

theorem upload_foldl (lines : List (List Char)) : ∀ (n : Nat) (s : Store),
    (lines.foldl uploadStep (n, s)).1 = n + lines.countP lineAdded ∧
      (lines.foldl uploadStep (n, s)).2.records.length =
        s.records.length + lines.countP lineAdded := by
  induction lines with
  | nil => intro n s; simp
  | cons a t ih =>
    intro n s
    rw [List.foldl_cons, List.countP_cons]
    by_cases hblank : pyStrip a = []
    · have hstep : uploadStep (n, s) a = (n, s) := by
        simp [uploadStep, hblank]
      have hadd : lineAdded a = false := by
        simp [lineAdded, hblank]
      rw [hstep, hadd]
      simpa using ih n s
    · rcases hparse : parseLine (pyStrip a) with _ | au
      · have hstep : uploadStep (n, s) a = (n, s) := by
          simp [uploadStep, hblank, hparse]
        have hadd : lineAdded a = false := by
          simp [lineAdded, hparse]
        rw [hstep, hadd]
        simpa using ih n s
      · have hstep : uploadStep (n, s) a = (n + 1, insertRecord s (String.mk au.2) au.1) := by
          simp [uploadStep, hblank, hparse]
        have hadd : lineAdded a = true := by
          simp [lineAdded, hblank, hparse]
        rw [hstep, hadd]
        obtain ⟨h1, h2⟩ := ih (n + 1) (insertRecord s (String.mk au.2) au.1)
        rw [h1, h2, insertRecord_length]
        simp
        all_goals omega

/-- C6: `upload_file` adds one record per parsable line (a line is counted
iff, after normalising commas and tabs to whitespace and splitting, it has
at least two fields and a numeric first field; blank and malformed lines are
skipped without aborting the batch and without being counted), the returned
count is the number of records actually added, and on the input
`"10 http://a\n20,http://b\nbad line\n5\tfoo"` exactly 3 records are added,
with amounts 10, 20 and 5. -/
theorem upload_file_parsing :
    (∀ (s : Store) (content : List Char),
      (upload_file s content).2.records.length =
          s.records.length + (upload_file s content).1 ∧
        (upload_file s content).1 = (splitChar '\n' (pyStrip content)).countP lineAdded) ∧
      (upload_file emptyStore "10 http://a\n20,http://b\nbad line\n5\tfoo".toList).1 = 3 ∧
      (upload_file emptyStore
          "10 http://a\n20,http://b\nbad line\n5\tfoo".toList).2.records.map
        Record.amount = [10, 20, 5] := by
  refine ⟨fun s content => ?_, ?_, ?_⟩
  · obtain ⟨h1, h2⟩ := upload_foldl (splitChar '\n' (pyStrip content)) 0 s
    unfold upload_file
    rw [h1, h2]
    omega
  · decide
  · have h1 : '1'.toNat = 49 := by decide
    have h2 : '2'.toNat = 50 := by decide
    have h5 : '5'.toNat = 53 := by decide
    norm_num +decide [upload_file, uploadStep, parseLine, pyFloat, pyStrip, splitChar,
      splitCharAux, splitWs, splitWsAux, replaceChar, isPySpace, digitsVal, insertRecord,
      emptyStore, List.intercalate, h1, h2, h5]

/-- C7 counterexample: `add_url` with a non-numeric amount token (`"abc"`)
does not fail with the described 400 validation error — the `ValueError`
from `float()` is uncaught (src/app.py:374 sits outside any try/except), so
the caller gets an undescribed 500 — though indeed no record is created. -/
theorem add_url_nonnumeric_uncaught :
    (add_url emptyStore "http://x".toList (JsonVal.str "abc".toList)).1 = .uncaughtError ∧
      isValidationError
        (add_url emptyStore "http://x".toList (JsonVal.str "abc".toList)).1 = false ∧
      (add_url emptyStore "http://x".toList (JsonVal.str "abc".toList)).2 = emptyStore := by
  refine ⟨?_, ?_, ?_⟩ <;> decide

/-- C7 amended: `add_url` fails with the described 400 `ValidationError`
("Valid URL and amount required") and creates no record whenever the parsed
amount is ≤ 0 or the stripped url is empty; a non-numeric amount token
instead raises an uncaught error (no described validation failure), also
creating no record; on valid input (numeric amount > 0, non-empty url) it
inserts the record. -/
theorem add_url_validation (s : Store) (urlVal : List Char) (amountVal : JsonVal) :
    (jsonFloat amountVal = none →
      add_url s urlVal amountVal = (.uncaughtError, s)) ∧
      (∀ a, jsonFloat amountVal = some a → (pyStrip urlVal = [] ∨ a ≤ 0) →
        add_url s urlVal amountVal = (.validationError "Valid URL and amount required", s)) ∧
      (∀ a, jsonFloat amountVal = some a → pyStrip urlVal ≠ [] → 0 < a →
        add_url s urlVal amountVal = (.added, insertRecord s (String.mk (pyStrip urlVal)) a)) := by
  refine ⟨?_, ?_, ?_⟩
  · intro h
    simp only [add_url, h]
  · intro a ha hbad
    simp only [add_url, ha]
    rw [if_pos hbad]
  · intro a ha hurl hpos
    simp only [add_url, ha]
    rw [if_neg (by push_neg; exact ⟨hurl, by linarith⟩)]

/-- Witness for C7 amended: the three branches at concrete inputs. -/
theorem add_url_validation_witness :
    add_url emptyStore "http://x".toList (JsonVal.str "abc".toList) =
        (.uncaughtError, emptyStore) ∧
      add_url emptyStore "".toList (JsonVal.num 5) =
        (.validationError "Valid URL and amount required", emptyStore) ∧
      add_url emptyStore "http://x".toList (JsonVal.num 30) =
        (.added, insertRecord emptyStore (String.mk (pyStrip "http://x".toList)) 30) :=
  ⟨(add_url_validation emptyStore "http://x".toList (JsonVal.str "abc".toList)).1 (by decide),
   (add_url_validation emptyStore "".toList (JsonVal.num 5)).2.1 5 rfl (Or.inl (by decide)),
   (add_url_validation emptyStore "http://x".toList (JsonVal.num 30)).2.2 30 rfl
     (by decide) (by norm_num)⟩

/-- C8 counterexample: on a state with two unused records of equal amount
10 (ids 1 and 2), two runs of `use_amount _ 10` are both possible outcomes
of the code (the query orders only by amount, so either tie order is a
valid `ORDER BY amount DESC` result), yet they return different consumed
lists — so the consumed order on ties is not reproducible. -/
theorem use_amount_tie_order_counterexample :
    UseAmountRun ⟨[⟨1, "http://a", 10, false⟩, ⟨2, "http://b", 10, false⟩], 3⟩ 10
        (.ok [⟨1, "http://a", 10, 0⟩] none,
          ⟨[⟨1, "http://a", 10, false⟩, ⟨2, "http://b", 10, false⟩], 3⟩) ∧
      UseAmountRun ⟨[⟨1, "http://a", 10, false⟩, ⟨2, "http://b", 10, false⟩], 3⟩ 10
        (.ok [⟨2, "http://b", 10, 0⟩] none,
          ⟨[⟨1, "http://a", 10, false⟩, ⟨2, "http://b", 10, false⟩], 3⟩) ∧
      consumedUrls (.ok [⟨1, "http://a", 10, 0⟩] none) ≠
        consumedUrls (.ok [⟨2, "http://b", 10, 0⟩] none) := by
  have hup : unusedPositive ⟨[⟨1, "http://a", 10, false⟩, ⟨2, "http://b", 10, false⟩], 3⟩ =
      [⟨1, "http://a", 10, false⟩, ⟨2, "http://b", 10, false⟩] := by
    norm_num [unusedPositive]
  refine ⟨?_, ?_, ?_⟩
  · unfold UseAmountRun
    rw [if_neg (by norm_num)]
    refine ⟨[⟨1, "http://a", 10, false⟩, ⟨2, "http://b", 10, false⟩], ⟨?_, ?_⟩, ?_⟩
    · rw [hup]
    · norm_num [AmountDescSorted, List.sorted_cons, amountDescRel]
    · norm_num [use_amount_given, greedyLoop]
  · unfold UseAmountRun
    rw [if_neg (by norm_num)]
    refine ⟨[⟨2, "http://b", 10, false⟩, ⟨1, "http://a", 10, false⟩], ⟨?_, ?_⟩, ?_⟩
    · rw [hup]
      exact List.Perm.swap _ _ _
    · norm_num [AmountDescSorted, List.sorted_cons, amountDescRel]
    · norm_num [use_amount_given, greedyLoop]
  · simp [consumedUrls]

/-- C8 amended: any two runs of the same allocation on the same state agree
on everything except which equal-amount record is picked: the consumed
lists have identical amount/remaining sequences, the shortfall field, the
success status and the final store coincide.  (The engine is deterministic
given the query's ordering; the store query fixes only amount-descending
order, so the identity of equal-amount records consumed may differ.) -/
theorem use_amount_tie_amount_determinism (s : Store) (amt : ℚ)
    (out₁ out₂ : UseAmountResult × Store)
    (h₁ : UseAmountRun s amt out₁) (h₂ : UseAmountRun s amt out₂) :
    (consumedUrls out₁.1).map (fun e => (e.amount, e.remaining)) =
        (consumedUrls out₂.1).map (fun e => (e.amount, e.remaining)) ∧
      remainingNeededField out₁.1 = remainingNeededField out₂.1 ∧
      isOkResult out₁.1 = isOkResult out₂.1 ∧ out₁.2 = out₂.2 := by
  unfold UseAmountRun at h₁ h₂
  by_cases h : amt ≤ 0
  · rw [if_pos h] at h₁ h₂
    rw [h₁, h₂]
    exact ⟨rfl, rfl, rfl, rfl⟩
  · rw [if_neg h] at h₁ h₂
    obtain ⟨l₁, hq₁, ho₁⟩ := h₁
    obtain ⟨l₂, hq₂, ho₂⟩ := h₂
    obtain ⟨hm, hr⟩ := greedyLoop_map_amounts l₁ l₂ amt (queryResult_map_amount hq₁ hq₂)
    rw [ho₁, ho₂]
    refine ⟨?_, ?_, ?_, ?_⟩
    · rw [use_amount_given_consumed, use_amount_given_consumed]
      exact hm
    · rw [use_amount_given_field, use_amount_given_field, hr]
    · rw [use_amount_given_isOk, use_amount_given_isOk]
    · rw [use_amount_given_store, use_amount_given_store]

/-- Witness for C8 amended: two canonical runs on the two-equal-records
state agree on the shortfall field. -/
theorem use_amount_tie_amount_determinism_witness :
    remainingNeededField
        (use_amount ⟨[⟨1, "http://a", 10, false⟩, ⟨2, "http://b", 10, false⟩], 3⟩ 10).1 =
      remainingNeededField
        (use_amount ⟨[⟨1, "http://a", 10, false⟩, ⟨2, "http://b", 10, false⟩], 3⟩ 10).1 :=
  (use_amount_tie_amount_determinism
    ⟨[⟨1, "http://a", 10, false⟩, ⟨2, "http://b", 10, false⟩], 3⟩ 10 _ _
    (useAmountRun_canonical _ 10) (useAmountRun_canonical _ 10)).2.1

/-- C1 (code evaluation at the claim's round-trip input): after
`AddRecord(t, "http://x", 30)` the store holds the unused record; the
subsequent `Allocate(t, 30)` reports it fully consumed and even schedules
its id in `to_mark_used`, yet the store after the call is unchanged — the
record's `used` flag is still `false`, because the UPDATE statements at
src/app.py:319-325 are commented out and nothing is committed. -/
theorem use_amount_applies_no_mutations :
    (add_url emptyStore "http://x".toList (JsonVal.num 30)).2 =
        ⟨[⟨1, "http://x", 30, false⟩], 2⟩ ∧
      (use_amount ⟨[⟨1, "http://x", 30, false⟩], 2⟩ 30).1 =
        .ok [⟨1, "http://x", 30, 0⟩] none ∧
      (greedyLoop 30 (use_amount_query ⟨[⟨1, "http://x", 30, false⟩], 2⟩)).to_mark_used =
        [1] ∧
      (use_amount ⟨[⟨1, "http://x", 30, false⟩], 2⟩ 30).2 =
        ⟨[⟨1, "http://x", 30, false⟩], 2⟩ := by
  refine ⟨?_, ?_, ?_, ?_⟩
  · norm_num +decide [add_url, jsonFloat, pyStrip, isPySpace, insertRecord, emptyStore]
  · norm_num [use_amount, use_amount_given, use_amount_query, unusedPositive,
      sortByAmountDesc, List.insertionSort, List.orderedInsert, greedyLoop]
  · norm_num [use_amount_query, unusedPositive, sortByAmountDesc, List.insertionSort,
      List.orderedInsert, greedyLoop]
  · norm_num [use_amount, use_amount_given, use_amount_query, unusedPositive,
      sortByAmountDesc, List.insertionSort, List.orderedInsert, greedyLoop]
